import Mathlib

/-!
Verification of the agent-orchestration workflows in this repository
(`agent.py`, `code.py`, `p_agent.py`, `i_agent.py`).

The repository configures agents, retry policies and Sequential/Parallel
composites; the orchestration semantics themselves (retry loop, state store,
templating, composites, cycle checking) live in the underlying framework and
are not part of the source tree.  Those semantics are modelled here from the
specification (definitions marked `Modelled from the spec:`); everything else
(retry parameters, agent templates, output keys, pipeline structure, and the
pure helper functions of `agent.py`, `code.py` and `i_agent.py`) is embedded
directly from the source files.
-/

/-- Retry-policy configuration record, embedding `types.HttpRetryOptions` as
constructed in the source: maximum attempts, exponential base, initial delay,
and the set of retryable HTTP status codes. -/
structure RetryPolicy where
  attempts : Nat
  exp_base : Nat
  initial_delay : Nat
  http_status_codes : List Nat
deriving DecidableEq

/-- The retry configuration of `src/agent.py` lines 28-33 and
`src/code.py` lines 255-260: attempts=5, exp_base=7, initial_delay=1,
retryable codes 429, 500, 503, 504. -/
def retry_config : RetryPolicy :=
  { attempts := 5
    exp_base := 7
    initial_delay := 1
    http_status_codes := [429, 500, 503, 504] }

/-- The retry configuration of `src/p_agent.py` lines 26-31:
attempts=5, exp_base=2, initial_delay=1, same retryable codes. -/
def retry_config_p : RetryPolicy :=
  { attempts := 5
    exp_base := 2
    initial_delay := 1
    http_status_codes := [429, 500, 503, 504] }

/-- Outcome of a retried external call: success after some attempt, retry
budget exhausted on a retryable classification, or an immediately propagated
non-retryable failure.  Each outcome records the number of attempts made. -/
inductive RetryOutcome (α : Type) where
  | success (value : α) (attemptsMade : Nat)
  | retryExhausted (code : Nat) (attemptsMade : Nat)
  | nonRetryable (code : Nat) (attemptsMade : Nat)
deriving DecidableEq

/-- Modelled from the spec: the bounded exponential-backoff wrapper (§4.3) is
implemented by the framework, not by the source tree.  `invokeAux p f
remaining attempt` runs attempt number `attempt` (counted from 1) of the
external call `f`, with `remaining` further attempts allowed.  On a retryable
failure with attempts left it sleeps `initial_delay * base^(attempt-1)` and
retries; otherwise it propagates.  The second component collects the sleep
durations, in order. -/
def invokeAux (p : RetryPolicy) (f : Nat → Except Nat α) :
    Nat → Nat → RetryOutcome α × List Nat
  | remaining, attempt =>
    match f attempt with
    | .ok a => (.success a attempt, [])
    | .error c =>
      if c ∈ p.http_status_codes then
        match remaining with
        | 0 => (.retryExhausted c attempt, [])
        | r + 1 =>
          let d := p.initial_delay * p.exp_base ^ (attempt - 1)
          let rest := invokeAux p f r (attempt + 1)
          (rest.1, d :: rest.2)
      else (.nonRetryable c attempt, [])

/-- Modelled from the spec: `invoke(fn, policy)` starts at attempt 1 with
`attempts - 1` retries available, so a persistently failing retryable call is
attempted exactly `attempts` times. -/
def invoke (p : RetryPolicy) (f : Nat → Except Nat α) : RetryOutcome α × List Nat :=
  invokeAux p f (p.attempts - 1) 1

/-- C1: with the retry policy of `src/agent.py` (max-attempts=5, base=7,
initial_delay=1, retryable codes 429/500/503/504), a call whose every attempt
fails with a retryable classification is attempted exactly 5 times with
sleeps 1, 7, 49, 343 before retries 1..4 and then surfaces retry exhaustion;
a call failing with a non-retryable classification is surfaced immediately
after attempt 1 with no sleep. -/
theorem retry_policy_c1 :
    (∀ (f : Nat → Except Nat String) (c : Nat),
        (∀ k, f k = Except.error c) → c ∈ retry_config.http_status_codes →
        invoke retry_config f = (RetryOutcome.retryExhausted c 5, [1, 7, 49, 343])) ∧
    (∀ (f : Nat → Except Nat String) (c : Nat),
        f 1 = Except.error c → c ∉ retry_config.http_status_codes →
        invoke retry_config f = (RetryOutcome.nonRetryable c 1, [])) := by
  constructor
  · intro f c hf hc
    have hc2 : c = 429 ∨ c = 500 ∨ c = 503 ∨ c = 504 := by
      simpa [retry_config] using hc
    simp [invoke, retry_config, invokeAux, hf, hc2]
  · intro f c hf hc
    have hc2 : ¬(c = 429 ∨ c = 500 ∨ c = 503 ∨ c = 504) := by
      simpa [retry_config] using hc
    simp [invoke, retry_config, invokeAux, hf, hc2]

/-- Witness for C1 at the concrete always-429 and always-404 calls. -/
theorem retry_policy_c1_witness :
    invoke retry_config (fun _ => (Except.error 429 : Except Nat String)) =
      (RetryOutcome.retryExhausted 429 5, [1, 7, 49, 343]) ∧
    invoke retry_config (fun _ => (Except.error 404 : Except Nat String)) =
      (RetryOutcome.nonRetryable 404 1, []) :=
  ⟨retry_policy_c1.1 _ 429 (fun _ => rfl) (by decide),
   retry_policy_c1.2 _ 404 rfl (by decide)⟩

/-- Modelled from the spec: the session-scoped Shared State Store (§4.1) lives
in the framework.  It is an association list; `setKey` prepends, so the most
recent write shadows older ones (last writer wins). -/
abbrev Store := List (String × String)

/-- Write a key (overwrite semantics: the new binding shadows any older one). -/
def Store.setKey (st : Store) (k v : String) : Store := (k, v) :: st

/-- Read a key: the most recent binding, or `none` when absent. -/
def Store.lookupKey : Store → String → Option String
  | [], _ => none
  | (k2, v) :: rest, k => if k2 = k then some v else Store.lookupKey rest k

/-- A piece of an instruction template: literal text or a placeholder
referencing a state-store key (a brace-delimited name in the source). -/
inductive TPart where
  | lit (s : String)
  | var (k : String)
deriving DecidableEq

/-- An instruction template is the ordered list of its pieces. -/
abbrev Template := List TPart

/-- Failure taxonomy of the orchestration core as visible to the claims:
a missing template variable, a failed external invocation (after retries) of
a named agent, or an aggregate failure naming every failed parallel child. -/
inductive RunError where
  | missingVar (key : String)
  | invocationFailed (agentName : String) (code : Nat)
  | aggregate (failed : List String)
deriving DecidableEq

/-- Modelled from the spec: instruction templating (§4.2) lives in the
framework.  `render` resolves a template against the store, failing with
`missingVar` when a placeholder references an absent key. -/
def render : Template → Store → Except RunError String
  | [], _ => .ok ""
  | .lit s :: rest, st => (render rest st).map (fun t => s ++ t)
  | .var k :: rest, st =>
    match st.lookupKey k with
    | some v => (render rest st).map (fun t => v ++ t)
    | none => .error (.missingVar k)

/-- Agent descriptor as configured in the source: a name, an instruction
template, and an optional output key. -/
structure MAgent where
  name : String
  template : Template
  output_key : Option String
deriving DecidableEq

/-- Per-child execution log: the store visible at render time, the rendered
instruction, and the output-key write the child made (if any). -/
structure StepLog where
  storeBefore : Store
  rendered : String
  written : Option (String × String)
deriving DecidableEq

/-- Modelled from the spec: one Agent execution (§4.4) against a store —
render the instruction, call the model (`llm`), and on success write the
result under the output key.  Render failure is terminal and propagates. -/
def runAgent (llm : String → Except RunError String) (a : MAgent) (st : Store) :
    Except RunError (Store × String × StepLog) :=
  match render a.template st with
  | .error e => .error e
  | .ok instr =>
    match llm instr with
    | .error e => .error e
    | .ok out =>
      let st2 := match a.output_key with
        | some k => st.setKey k out
        | none => st
      .ok (st2, out, ⟨st, instr, a.output_key.map (fun k => (k, out))⟩)

/-- Modelled from the spec: the Sequential Composite (§4.6) runs children
strictly in declared order, each against the cumulative store; a child
failure aborts the chain.  Returns the final store, the last child's result,
and the per-child logs. -/
def runSeq (llm : String → Except RunError String) :
    List MAgent → Store → Except RunError (Store × String × List StepLog)
  | [], st => .ok (st, "", [])
  | a :: rest, st =>
    match runAgent llm a st with
    | .error e => .error e
    | .ok (st2, out, lg) =>
      match runSeq llm rest st2 with
      | .error e => .error e
      | .ok (st3, out3, logs) => .ok (st3, if rest.isEmpty then out else out3, lg :: logs)

/-- Apply one logged write (if any) to a store. -/
def applyWrite (st : Store) (lg : StepLog) : Store :=
  match lg.written with
  | some (k, v) => st.setKey k v
  | none => st

/-- Apply the logged writes of a list of steps, in order. -/
def applyWrites (st : Store) (logs : List StepLog) : Store :=
  logs.foldl applyWrite st

/-- Value of the last write to key `k` among the given logs, if any. -/
def lastWrite : List StepLog → String → Option String
  | [], _ => none
  | lg :: logs, k =>
    match lastWrite logs k with
    | some v => some v
    | none =>
      match lg.written with
      | some (k2, v) => if k2 = k then some v else none
      | none => none

theorem applyWrites_nil (st : Store) : applyWrites st [] = st := rfl

theorem applyWrites_cons (st : Store) (lg : StepLog) (logs : List StepLog) :
    applyWrites st (lg :: logs) = applyWrites (applyWrite st lg) logs := rfl

/-- A successful single-agent run logs the render-time store, the output-key
write it made, and threads the store by exactly that write. -/
theorem runAgent_ok (llm : String → Except RunError String) (a : MAgent)
    (st st2 : Store) (out : String) (lg : StepLog)
    (h : runAgent llm a st = Except.ok (st2, out, lg)) :
    lg.storeBefore = st ∧
    lg.written = a.output_key.map (fun k => (k, out)) ∧
    st2 = applyWrite st lg ∧
    render a.template st = Except.ok lg.rendered ∧
    llm lg.rendered = Except.ok out := by
  cases hr : render a.template st with
  | error e => simp [runAgent, hr] at h
  | ok instr =>
    cases hl : llm instr with
    | error e => simp [runAgent, hr, hl] at h
    | ok o =>
      simp only [runAgent, hr, hl, Except.ok.injEq, Prod.mk.injEq] at h
      obtain ⟨h1, h2, h3⟩ := h
      subst h2
      subst h3
      refine ⟨rfl, rfl, ?_, by simp [hr], by simp [hl]⟩
      cases hk : a.output_key with
      | none => simp [hk] at h1; simp [applyWrite, hk, ← h1]
      | some k => simp [hk] at h1; simp [applyWrite, hk, ← h1]

/-- Structure of a successful sequential run: one log per child, each child's
render-time store is the initial store plus the writes of all its
predecessors (in order), and each child's logged write is under its declared
output key. -/
theorem runSeq_spec (llm : String → Except RunError String) (agents : List MAgent)
    (st st' : Store) (res : String) (logs : List StepLog)
    (h : runSeq llm agents st = Except.ok (st', res, logs)) :
    logs.length = agents.length ∧
    ∀ i (hi : i < logs.length) (hi2 : i < agents.length),
      (logs.get ⟨i, hi⟩).storeBefore = applyWrites st (logs.take i) ∧
      ∃ out, (logs.get ⟨i, hi⟩).written =
        ((agents.get ⟨i, hi2⟩).output_key).map (fun k => (k, out)) := by
  induction agents generalizing st st' res logs with
  | nil =>
    simp only [runSeq, Except.ok.injEq, Prod.mk.injEq] at h
    obtain ⟨-, -, h3⟩ := h
    subst h3
    simp
  | cons a rest ih =>
    cases hra : runAgent llm a st with
    | error e => simp [runSeq, hra] at h
    | ok v =>
      obtain ⟨st2, out, lg⟩ := v
      cases hrs : runSeq llm rest st2 with
      | error e => simp [runSeq, hra, hrs] at h
      | ok w =>
        obtain ⟨st3, out3, logs'⟩ := w
        simp only [runSeq, hra, hrs, Except.ok.injEq, Prod.mk.injEq] at h
        obtain ⟨-, -, hlogs⟩ := h
        subst hlogs
        obtain ⟨hb, hw, hst2, -, -⟩ := runAgent_ok llm a st st2 out lg hra
        obtain ⟨hlen, hspec⟩ := ih st2 st3 out3 logs' hrs
        refine ⟨by simp [hlen], ?_⟩
        intro i hi hi2
        match i with
        | 0 =>
          refine ⟨by simpa [applyWrites] using hb, out, ?_⟩
          simpa using hw
        | Nat.succ j =>
          have hj : j < logs'.length := by simpa using hi
          have hj2 : j < rest.length := by simpa using hi2
          obtain ⟨hsb, hwr⟩ := hspec j hj hj2
          constructor
          · simpa [List.take_succ_cons, applyWrites_cons, ← hst2] using hsb
          · simpa using hwr

/-- If no log in the list writes key `k`, `lastWrite` finds nothing. -/
theorem lastWrite_eq_none (logs : List StepLog) (k : String)
    (h : ∀ lg ∈ logs, ∀ v, lg.written ≠ some (k, v)) :
    lastWrite logs k = none := by
  induction logs with
  | nil => rfl
  | cons lg logs ih =>
    have htail : lastWrite logs k = none :=
      ih (fun lg2 hm v => h lg2 (List.mem_cons_of_mem _ hm) v)
    simp only [lastWrite, htail]
    cases hw : lg.written with
    | none => rfl
    | some p =>
      obtain ⟨k2, v⟩ := p
      by_cases hk : k2 = k
      · subst hk
        exact absurd hw (h lg (List.mem_cons_self _ _) v)
      · simp [hk]

/-- A found `lastWrite` value comes from some log in the list. -/
theorem lastWrite_eq_some_mem (logs : List StepLog) (k : String) (v : String)
    (h : lastWrite logs k = some v) :
    ∃ lg ∈ logs, lg.written = some (k, v) := by
  induction logs with
  | nil => exact absurd h (by simp [lastWrite])
  | cons lg logs ih =>
    cases ht : lastWrite logs k with
    | some v2 =>
      simp only [lastWrite, ht, Option.some.injEq] at h
      subst h
      obtain ⟨lg2, hm, hw⟩ := ih ht
      exact ⟨lg2, List.mem_cons_of_mem _ hm, hw⟩
    | none =>
      simp only [lastWrite, ht] at h
      cases hw : lg.written with
      | none => rw [hw] at h; exact absurd h (by simp)
      | some p =>
        obtain ⟨k2, v2⟩ := p
        rw [hw] at h
        simp only [Option.ite_none_right_eq_some, Option.some.injEq] at h
        obtain ⟨hk, hv⟩ := h
        subst hk
        subst hv
        exact ⟨lg, List.mem_cons_self _ _, hw⟩

/-- When exactly the logs writing `k` all write value `v` and one such log is
present, `lastWrite` returns `v`. -/
theorem lastWrite_eq_some (logs : List StepLog) (k : String) (v : String)
    (lg0 : StepLog) (hm : lg0 ∈ logs) (hw : lg0.written = some (k, v))
    (huniq : ∀ lg ∈ logs, ∀ v2, lg.written = some (k, v2) → v2 = v) :
    lastWrite logs k = some v := by
  induction logs with
  | nil => exact absurd hm (by simp)
  | cons lg logs ih =>
    cases ht : lastWrite logs k with
    | some v2 =>
      obtain ⟨lg2, hm2, hw2⟩ := lastWrite_eq_some_mem logs k v2 ht
      have hv : v2 = v := huniq lg2 (List.mem_cons_of_mem _ hm2) v2 hw2
      subst hv
      simp [lastWrite, ht]
    | none =>
      rcases List.mem_cons.mp hm with heq | hmem
      · subst heq
        simp [lastWrite, ht, hw]
      · exact absurd (ih hmem (fun lg2 h2 v2 hw2 =>
          huniq lg2 (List.mem_cons_of_mem _ h2) v2 hw2)) (by simp [ht])

/-- Looking a key up after applying logged writes: the last write wins, and
absent any write the original store answers. -/
theorem lookupKey_applyWrites (logs : List StepLog) (st : Store) (k : String) :
    (applyWrites st logs).lookupKey k =
      match lastWrite logs k with
      | some v => some v
      | none => st.lookupKey k := by
  induction logs generalizing st with
  | nil => rfl
  | cons lg logs ih =>
    rw [applyWrites_cons, ih]
    simp only [lastWrite]
    cases ht : lastWrite logs k with
    | some v => rfl
    | none =>
      cases hw : lg.written with
      | none => simp [applyWrite, hw]
      | some p =>
        obtain ⟨k2, v⟩ := p
        by_cases hk : k2 = k
        · subst hk
          simp [applyWrite, hw, Store.setKey, Store.lookupKey]
        · simp [applyWrite, hw, Store.setKey, Store.lookupKey, hk]

theorem get_mem_take {α : Type} (l : List α) (i j : Nat) (hj : j < l.length)
    (hij : j < i) : l.get ⟨j, hj⟩ ∈ l.take i := by
  induction l generalizing i j with
  | nil => simp at hj
  | cons a l ih =>
    cases i with
    | zero => omega
    | succ i =>
      cases j with
      | zero => simp
      | succ j =>
        simp only [List.take_succ_cons, List.get]
        exact List.mem_cons_of_mem _ (ih i j (by simpa using hj) (by omega))

theorem get_take_eq {α : Type} (l : List α) (i j : Nat) (h : j < (l.take i).length)
    (h2 : j < l.length) : (l.take i).get ⟨j, h⟩ = l.get ⟨j, h2⟩ := by
  induction l generalizing i j with
  | nil => simp at h2
  | cons a l ih =>
    cases i with
    | zero => simp at h
    | succ i =>
      cases j with
      | zero => rfl
      | succ j => simpa using ih i j (by simpa using h) (by simpa using h2)

/-- The `OutlineAgent` of `src/agent.py` lines 79-91: a literal instruction,
writing under `blog_outline`. -/
def outline_agent : MAgent :=
  { name := "OutlineAgent"
    template := [TPart.lit "Create a blog outline for the given topic with:\n        1. A catchy headline\n        2. An introduction hook\n        3. 3-5 main sections with 2-3 bullet points for each\n        4. A concluding thought"]
    output_key := some "blog_outline" }

/-- The `WriterAgent` of `src/agent.py` lines 94-103: its template references
the `blog_outline` placeholder and it writes under `blog_draft`. -/
def writer_agent : MAgent :=
  { name := "WriterAgent"
    template := [TPart.lit "Following this outline strictly: ", TPart.var "blog_outline",
      TPart.lit "\n        Write a brief, 200 to 300-word blog post with an engaging and informative tone."]
    output_key := some "blog_draft" }

/-- The `EditorAgent` of `src/agent.py` lines 106-115: its template references
the `blog_draft` placeholder and it writes under `final_blog`. -/
def editor_agent : MAgent :=
  { name := "EditorAgent"
    template := [TPart.lit "Edit this draft: ", TPart.var "blog_draft",
      TPart.lit "\n        Your task is to polish the text by fixing any grammatical errors, improving the flow and sentence structure, and enhancing overall clarity."]
    output_key := some "final_blog" }

/-- The `BlogPipeline` sequential composite of `src/agent.py` lines 118-121:
Outline, then Writer, then Editor. -/
def blog_pipeline : List MAgent := [outline_agent, writer_agent, editor_agent]

/-- The session store as seeded by the Runner for the blog example: the user
input of `src/agent.py` line 244 under the implicit input key. -/
def blog_initial_store : Store :=
  [("user_input", "Write a blog post about the benefits of multi-agent systems for software developers")]

/-- Substring containment witnessed by an explicit decomposition. -/
def containsStr (s sub : String) : Prop := ∃ p q, s = p ++ (sub ++ q)

/-- C2: in a successful sequential run with pairwise-distinct output keys that
are fresh with respect to the initial store, the render-time store of child
i+1 contains every output-key write made by children 1..i and contains no
output-key write made by children i+2..n; in particular, in the BlogPipeline
the WriterAgent's rendered instruction contains the value written under
`blog_outline` and the EditorAgent's contains the value written under
`blog_draft`. -/
theorem seq_visibility_c2 :
    (∀ (llm : String → Except RunError String) (agents : List MAgent)
        (st0 st' : Store) (res : String) (logs : List StepLog),
        runSeq llm agents st0 = Except.ok (st', res, logs) →
        (∀ j1 (h1 : j1 < agents.length) j2 (h2 : j2 < agents.length) (k : String),
            (agents.get ⟨j1, h1⟩).output_key = some k →
            (agents.get ⟨j2, h2⟩).output_key = some k → j1 = j2) →
        (∀ j (hj : j < agents.length) (k : String),
            (agents.get ⟨j, hj⟩).output_key = some k → st0.lookupKey k = none) →
        (∀ i j (hi : i < logs.length) (hj : j < agents.length) (hjl : j < logs.length),
            j < i →
            ∀ k, (agents.get ⟨j, hj⟩).output_key = some k →
            ∃ v, (logs.get ⟨j, hjl⟩).written = some (k, v) ∧
              ((logs.get ⟨i, hi⟩).storeBefore).lookupKey k = some v) ∧
        (∀ i j (hi : i < logs.length) (hj : j < agents.length), i < j →
            ∀ k, (agents.get ⟨j, hj⟩).output_key = some k →
            ((logs.get ⟨i, hi⟩).storeBefore).lookupKey k = none)) ∧
    (∀ llmT : String → String, ∃ st' res l0 l1 l2,
        runSeq (fun s => Except.ok (llmT s)) blog_pipeline blog_initial_store =
          Except.ok (st', res, [l0, l1, l2]) ∧
        l0.written = some ("blog_outline", llmT l0.rendered) ∧
        containsStr l1.rendered (llmT l0.rendered) ∧
        l1.written = some ("blog_draft", llmT l1.rendered) ∧
        containsStr l2.rendered (llmT l1.rendered)) := by
  constructor
  · intro llm agents st0 st' res logs hrun hdist hfresh
    obtain ⟨hlen, hspec⟩ := runSeq_spec llm agents st0 st' res logs hrun
    constructor
    · intro i j hi hj hjl hji k hk
      obtain ⟨-, out_j, hwj⟩ := hspec j hjl hj
      rw [hk] at hwj
      simp only [Option.map_some'] at hwj
      refine ⟨out_j, hwj, ?_⟩
      obtain ⟨hsbi, -⟩ := hspec i hi (by omega)
      rw [hsbi, lookupKey_applyWrites]
      have hlw : lastWrite (logs.take i) k = some out_j := by
        refine lastWrite_eq_some _ _ _ (logs.get ⟨j, hjl⟩)
          (get_mem_take logs i j hjl hji) hwj ?_
        intro lg hmem v2 hw2
        obtain ⟨⟨j2, hj2t⟩, hget⟩ := List.mem_iff_get.mp hmem
        have hj2i : j2 < i := by
          have := hj2t
          simp only [List.length_take] at this
          omega
        have hj2l : j2 < logs.length := by
          have := hj2t
          simp only [List.length_take] at this
          omega
        have hj2a : j2 < agents.length := by omega
        have hgeq : (logs.take i).get ⟨j2, hj2t⟩ = logs.get ⟨j2, hj2l⟩ :=
          get_take_eq logs i j2 hj2t hj2l
        rw [hgeq] at hget
        obtain ⟨-, out2, hw2'⟩ := hspec j2 hj2l hj2a
        rw [hget, hw2] at hw2'
        cases hko : (agents.get ⟨j2, hj2a⟩).output_key with
        | none => rw [hko] at hw2'; simp at hw2'
        | some k2 =>
          rw [hko] at hw2'
          simp only [Option.map_some', Option.some.injEq, Prod.mk.injEq] at hw2'
          obtain ⟨hk2, hv2⟩ := hw2'
          rw [← hk2] at hko
          have hj2j : j2 = j := hdist j2 hj2a j hj k hko hk
          subst hj2j
          have hlg : lg.written = some (k, out_j) := by
            rw [← hget]; exact hwj
          rw [hw2] at hlg
          simp only [Option.some.injEq, Prod.mk.injEq] at hlg
          exact hlg.2
      rw [hlw]
    · intro i j hi hj hij k hk
      obtain ⟨hsbi, -⟩ := hspec i hi (by omega)
      rw [hsbi, lookupKey_applyWrites]
      have hlw : lastWrite (logs.take i) k = none := by
        refine lastWrite_eq_none _ _ ?_
        intro lg hmem v hw
        obtain ⟨⟨j2, hj2t⟩, hget⟩ := List.mem_iff_get.mp hmem
        have hj2i : j2 < i := by
          have := hj2t
          simp only [List.length_take] at this
          omega
        have hj2l : j2 < logs.length := by
          have := hj2t
          simp only [List.length_take] at this
          omega
        have hj2a : j2 < agents.length := by omega
        have hgeq : (logs.take i).get ⟨j2, hj2t⟩ = logs.get ⟨j2, hj2l⟩ :=
          get_take_eq logs i j2 hj2t hj2l
        rw [hgeq] at hget
        obtain ⟨-, out2, hw2'⟩ := hspec j2 hj2l hj2a
        rw [hget, hw] at hw2'
        cases hko : (agents.get ⟨j2, hj2a⟩).output_key with
        | none => rw [hko] at hw2'; simp at hw2'
        | some k2 =>
          rw [hko] at hw2'
          simp only [Option.map_some', Option.some.injEq, Prod.mk.injEq] at hw2'
          obtain ⟨hk2, -⟩ := hw2'
          rw [← hk2] at hko
          have : j2 = j := hdist j2 hj2a j hj k hko hk
          omega
      rw [hlw]
      exact hfresh j hj k hk
  · intro llmT
    refine ⟨_, _, _, _, _, rfl, rfl,
      ⟨"Following this outline strictly: ", _, rfl⟩, rfl,
      ⟨"Edit this draft: ", _, rfl⟩⟩

/-- Two-agent chain used to instantiate the sequential-visibility theorem. -/
def c2wA : MAgent := { name := "A", template := [TPart.lit "ia"], output_key := some "ka" }

/-- Second agent of the concrete chain: reads `ka`, writes `kb`. -/
def c2wB : MAgent := { name := "B", template := [TPart.var "ka"], output_key := some "kb" }

/-- Constant model used to instantiate the sequential-visibility theorem. -/
def c2llm : String → Except RunError String := fun _ => Except.ok "T"

/-- Witness for C2: in the concrete two-agent chain, the second child's
render-time store contains the first child's write under `ka`. -/
theorem seq_visibility_c2_witness :
    ∃ v, (some ("ka", "T") : Option (String × String)) = some ("ka", v) ∧
      Store.lookupKey [("ka", "T")] "ka" = some v := by
  have h := (seq_visibility_c2.1 c2llm [c2wA, c2wB] [] [("kb", "T"), ("ka", "T")] "T"
      [⟨[], "ia", some ("ka", "T")⟩, ⟨[("ka", "T")], "T", some ("kb", "T")⟩]
      rfl
      (by
        intro j1 h1 j2 h2 k hk1 hk2
        simp only [List.length_cons, List.length_nil] at h1 h2
        interval_cases j1 <;> interval_cases j2 <;> simp_all [c2wA, c2wB] <;>
          exact absurd (hk2.trans hk1.symm) (by decide))
      (fun _ _ _ _ => rfl)).1
    1 0 (by decide) (by decide) (by decide) (by decide) "ka" rfl
  simpa [Store.lookupKey] using h

/-- Modelled from the spec: one parallel child's execution against the
read-only fan-out snapshot (§4.7) — render from the snapshot, then invoke
the model.  Returns the rendered instruction together with the output. -/
def childRun (llm : String → Except RunError String) (c : MAgent) (snapshot : Store) :
    Except RunError (String × String) :=
  match render c.template snapshot with
  | .error e => .error e
  | .ok instr =>
    match llm instr with
    | .error e => .error e
    | .ok out => .ok (instr, out)

/-- Modelled from the spec: child outcomes observed under an arbitrary
completion schedule.  The schedule lists child indices in completion order;
every child runs against the same immutable snapshot. -/
def schedOutcomes (llm : String → Except RunError String) (children : List MAgent)
    (snapshot : Store) : List Nat → List (Nat × Except RunError (String × String))
  | [] => []
  | i :: rest =>
    match children[i]? with
    | some c => (i, childRun llm c snapshot) :: schedOutcomes llm children snapshot rest
    | none => schedOutcomes llm children snapshot rest

/-- Result of a Parallel Composite run: the per-child outcomes in declared
order, the store visible after the composite finishes, and the overall
result (merged outputs, or an aggregate error). -/
structure ParResult where
  outcomes : List (String × Except RunError (String × String))
  postStore : Store
  result : Except RunError (List String)

/-- Modelled from the spec: the Parallel Composite (§4.7) — snapshot at
fan-out, run every child to completion against the snapshot
(fire-and-collect), then either merge all output-key writes into the real
store in declared child order, or, if any child failed, fail with an
aggregate error naming every failed child and leave the store untouched. -/
def runParallel (llm : String → Except RunError String) (children : List MAgent)
    (st : Store) : ParResult :=
  let outs := children.map (fun c => (c.name, childRun llm c st))
  match outs.filterMap (fun p => match p.2 with
    | .error _ => some p.1
    | .ok _ => none) with
  | [] =>
    { outcomes := outs
      postStore := children.foldl (fun s c =>
          match c.output_key, childRun llm c st with
          | some k, .ok (_, out) => s.setKey k out
          | _, _ => s) st
      result := .ok (outs.filterMap (fun p => match p.2 with
        | .ok (_, o) => some o
        | .error _ => none)) }
  | f :: fs =>
    { outcomes := outs, postStore := st, result := .error (.aggregate (f :: fs)) }

/-- C3: under every completion schedule, a parallel child's observed outcome
(and hence its rendered instruction) is computed from the fan-out snapshot
alone — it cannot contain another child's output-key write, which is not in
the snapshot; and any store change happens only in the composite-level merge
after all children finish. -/
theorem par_isolation_c3 :
    (∀ (llm : String → Except RunError String) (children : List MAgent)
        (snapshot : Store) (sched : List Nat) (i : Nat) (c : MAgent),
        children[i]? = some c → i ∈ sched →
        List.lookup i (schedOutcomes llm children snapshot sched) =
          some (childRun llm c snapshot)) ∧
    (∀ (llm : String → Except RunError String) (c : MAgent) (snapshot : Store)
        (instr out : String),
        childRun llm c snapshot = Except.ok (instr, out) →
        render c.template snapshot = Except.ok instr) ∧
    (∀ (llm : String → Except RunError String) (children : List MAgent) (st : Store)
        (e : RunError),
        (runParallel llm children st).result = Except.error e →
        (runParallel llm children st).postStore = st) := by
  refine ⟨?_, ?_, ?_⟩
  · intro llm children snapshot sched
    induction sched with
    | nil => intro i c hget hmem; simp at hmem
    | cons j rest ih =>
      intro i c hget hmem
      by_cases hji : j = i
      · subst hji
        simp [schedOutcomes, hget, List.lookup]
      · have hmem' : i ∈ rest := by
          rcases List.mem_cons.mp hmem with h | h
          · exact absurd h.symm hji
          · exact h
        cases hgj : children[j]? with
        | none => simpa [schedOutcomes, hgj] using ih i c hget hmem'
        | some cj =>
          have hne : (i == j) = false := by
            simp only [beq_eq_false_iff_ne, ne_eq]
            exact fun h => hji h.symm
          simpa [schedOutcomes, hgj, List.lookup, hne] using ih i c hget hmem'
  · intro llm c snapshot instr out h
    cases hr : render c.template snapshot with
    | error e => simp [childRun, hr] at h
    | ok instr2 =>
      cases hl : llm instr2 with
      | error e => simp [childRun, hr, hl] at h
      | ok o =>
        simp only [childRun, hr, hl, Except.ok.injEq, Prod.mk.injEq] at h
        obtain ⟨h1, -⟩ := h
        subst h1
        rfl
  · intro llm children st e h
    simp only [runParallel] at h ⊢
    cases hf : ((children.map (fun c => (c.name, childRun llm c st))).filterMap
        (fun p => match p.2 with
          | .error _ => some p.1
          | .ok _ => none)) with
    | nil => simp only [hf] at h; exact absurd h (by simp)
    | cons f fs => simp only [hf]

/-- The `TechResearcher` of `src/p_agent.py` lines 34-44: literal
instruction, writing under `tech_research`. -/
def tech_researcher : MAgent :=
  { name := "TechResearcher"
    template := [TPart.lit "Research the latest AI/ML trends. Include 3 key developments,\nthe main companies involved, and the potential impact. Keep the report very concise (100 words)."]
    output_key := some "tech_research" }

/-- The `HealthResearcher` of `src/p_agent.py` lines 49-59: literal
instruction, writing under `health_research`. -/
def health_researcher : MAgent :=
  { name := "HealthResearcher"
    template := [TPart.lit "Research recent medical breakthroughs. Include 3 significant advances,\ntheir practical applications, and estimated timelines. Keep the report concise (100 words)."]
    output_key := some "health_research" }

/-- The `FinanceResearcher` of `src/p_agent.py` lines 64-74: literal
instruction, writing under `finance_research`. -/
def finance_researcher : MAgent :=
  { name := "FinanceResearcher"
    template := [TPart.lit "Research current fintech trends. Include 3 key trends,\ntheir market implications, and the future outlook. Keep the report concise (100 words)."]
    output_key := some "finance_research" }

/-- The `ParallelResearchTeam` composite of `src/p_agent.py` lines 103-106:
the three researchers fanned out in parallel. -/
def parallel_research_team : List MAgent :=
  [tech_researcher, health_researcher, finance_researcher]

/-- Identity-like model used to instantiate the parallel-isolation theorem. -/
def c3llm : String → Except RunError String := fun s => Except.ok s

/-- Witness for C3: under the completion schedule 2,0,1 the TechResearcher's
outcome is exactly its run against the fan-out snapshot. -/
theorem par_isolation_c3_witness :
    List.lookup 0 (schedOutcomes c3llm parallel_research_team [] [2, 0, 1]) =
      some (childRun c3llm tech_researcher []) :=
  par_isolation_c3.1 c3llm parallel_research_team [] [2, 0, 1] 0 tech_researcher
    rfl (by decide)

/-- Model in which exactly the HealthResearcher's instruction fails (with a
503 after retries); every other instruction succeeds. -/
def llmFailHealth : String → Except RunError String := fun s =>
  if s = "Research recent medical breakthroughs. Include 3 significant advances,\ntheir practical applications, and estimated timelines. Keep the report concise (100 words)." then
    Except.error (RunError.invocationFailed "HealthResearcher" 503)
  else Except.ok ("Report: " ++ s)

set_option maxRecDepth 4000 in
/-- C4: in the parallel research team with exactly child 2 (HealthResearcher)
failing, children 1 and 3 still run to completion, the composite fails with
an aggregate error listing exactly the HealthResearcher, and no output-key
write from any child reaches the post-failure store. -/
theorem par_partial_failure_c4 :
    (∃ rt rf,
      (runParallel llmFailHealth parallel_research_team []).outcomes =
        [("TechResearcher", Except.ok rt),
         ("HealthResearcher", Except.error (RunError.invocationFailed "HealthResearcher" 503)),
         ("FinanceResearcher", Except.ok rf)]) ∧
    (runParallel llmFailHealth parallel_research_team []).result =
      Except.error (RunError.aggregate ["HealthResearcher"]) ∧
    (runParallel llmFailHealth parallel_research_team []).postStore = [] ∧
    Store.lookupKey (runParallel llmFailHealth parallel_research_team []).postStore
      "tech_research" = none ∧
    Store.lookupKey (runParallel llmFailHealth parallel_research_team []).postStore
      "health_research" = none ∧
    Store.lookupKey (runParallel llmFailHealth parallel_research_team []).postStore
      "finance_research" = none := by
  refine ⟨⟨_, _, rfl⟩, rfl, rfl, rfl, rfl, rfl⟩

/-- C5: running the Sequential pipeline Outline then Writer then Editor on
the multi-agent-systems input, with a model that always answers non-empty
text, produces a non-empty final result (the `final_blog` value) and a
terminal store containing all three keys `blog_outline`, `blog_draft` and
`final_blog`. -/
theorem blog_end_to_end_c5 (llm : String → String) (hne : ∀ s, llm s ≠ "") :
    ∃ st' res logs,
      runSeq (fun s => Except.ok (llm s)) blog_pipeline blog_initial_store =
        Except.ok (st', res, logs) ∧
      res ≠ "" ∧
      (∃ v1, st'.lookupKey "blog_outline" = some v1) ∧
      (∃ v2, st'.lookupKey "blog_draft" = some v2) ∧
      (∃ v3, st'.lookupKey "final_blog" = some v3 ∧ v3 = res) := by
  refine ⟨_, _, _, rfl, hne _, ⟨_, rfl⟩, ⟨_, rfl⟩, ⟨_, rfl, rfl⟩⟩

/-- Witness for C5 at the constant non-empty model. -/
theorem blog_end_to_end_c5_witness :
    ∃ st' res logs,
      runSeq (fun s => Except.ok ((fun _ => "text") s)) blog_pipeline blog_initial_store =
        Except.ok (st', res, logs) ∧
      res ≠ "" ∧
      (∃ v1, st'.lookupKey "blog_outline" = some v1) ∧
      (∃ v2, st'.lookupKey "blog_draft" = some v2) ∧
      (∃ v3, st'.lookupKey "final_blog" = some v3 ∧ v3 = res) :=
  blog_end_to_end_c5 (fun _ => "text") (fun _ => by simp)

/-- A render failure is always a missing-variable failure, for a placeholder
key absent from the store. -/
theorem render_error_missingVar (t : Template) (st : Store) (e : RunError)
    (h : render t st = Except.error e) :
    ∃ k, e = RunError.missingVar k ∧ st.lookupKey k = none := by
  induction t with
  | nil => simp [render] at h
  | cons part rest ih =>
    cases part with
    | lit s =>
      cases hr : render rest st with
      | error e2 =>
        simp only [render, hr, Except.map, Except.error.injEq] at h
        subst h
        exact ih hr
      | ok s2 => simp [render, hr, Except.map] at h
    | var k =>
      cases hl : st.lookupKey k with
      | some v =>
        cases hr : render rest st with
        | error e2 =>
          simp only [render, hl, hr, Except.map, Except.error.injEq] at h
          subst h
          exact ih hr
        | ok s2 => simp [render, hl, hr, Except.map] at h
      | none =>
        simp only [render, hl, Except.error.injEq] at h
        exact ⟨k, h.symm, hl⟩

/-- Modelled from the spec: the full Agent execution with the Retry Policy
wrapping only the external invocation (§4.3, §4.4).  `fm instr attempt` is
the external call for the rendered instruction at the given attempt number.
Returns the result together with the number of external attempts made: a
render failure is terminal and makes zero external attempts (never retried). -/
def runAgentR (p : RetryPolicy) (fm : String → Nat → Except Nat String)
    (a : MAgent) (st : Store) : Except RunError (Store × String) × Nat :=
  match render a.template st with
  | .error e => (.error e, 0)
  | .ok instr =>
    match invoke p (fm instr) with
    | (.success v n, _) =>
      (.ok ((match a.output_key with
        | some k => st.setKey k v
        | none => st), v), n)
    | (.retryExhausted c n, _) => (.error (.invocationFailed a.name c), n)
    | (.nonRetryable c n, _) => (.error (.invocationFailed a.name c), n)

/-- The `AggregatorAgent` of `src/p_agent.py` lines 79-98: its template
references the `tech_research`, `health_research` and `finance_research`
placeholders and it writes under `executive_summary`. -/
def aggregator_agent : MAgent :=
  { name := "AggregatorAgent"
    template :=
      [TPart.lit "Combine these three research findings into a single executive summary:\n\n**Technology Trends:**\n",
       TPart.var "tech_research",
       TPart.lit "\n\n**Health Breakthroughs:**\n",
       TPart.var "health_research",
       TPart.lit "\n\n**Finance Innovations:**\n",
       TPart.var "finance_research",
       TPart.lit "\n\nYour summary should highlight common themes, surprising connections, and the most important key takeaways from all three reports. The final summary should be around 200 words."]
    output_key := some "executive_summary" }

theorem containsStr_append_left (a t sub : String) (h : containsStr t sub) :
    containsStr (a ++ t) sub := by
  obtain ⟨p, q, hp⟩ := h
  exact ⟨a ++ p, q, by rw [hp, String.append_assoc]⟩

/-- C6: a render failure (missing template variable) is terminal for the
agent — it propagates as the agent's failure with zero external attempts, so
the retry policy never runs; in particular the AggregatorAgent fails with
`missingVar` when run before the parallel group has written its keys, and
renders successfully (with all three values embedded) once `tech_research`,
`health_research` and `finance_research` are present. -/
theorem missing_variable_c6 :
    (∀ (p : RetryPolicy) (fm : String → Nat → Except Nat String) (a : MAgent)
        (st : Store) (e : RunError),
        render a.template st = Except.error e →
        runAgentR p fm a st = (Except.error e, 0) ∧
        ∃ k, e = RunError.missingVar k ∧ st.lookupKey k = none) ∧
    (∀ fm : String → Nat → Except Nat String,
        runAgentR retry_config_p fm aggregator_agent
          [("user_input", "Run the daily executive briefing on Tech, Health, and Finance")] =
          (Except.error (RunError.missingVar "tech_research"), 0)) ∧
    (∀ (v1 v2 v3 : String) (st : Store),
        st.lookupKey "tech_research" = some v1 →
        st.lookupKey "health_research" = some v2 →
        st.lookupKey "finance_research" = some v3 →
        ∃ s, render aggregator_agent.template st = Except.ok s ∧
          containsStr s v1 ∧ containsStr s v2 ∧ containsStr s v3) := by
  refine ⟨?_, ?_, ?_⟩
  · intro p fm a st e h
    exact ⟨by simp [runAgentR, h], render_error_missingVar a.template st e h⟩
  · intro fm
    rfl
  · intro v1 v2 v3 st h1 h2 h3
    have hr : render aggregator_agent.template st =
        Except.ok ("Combine these three research findings into a single executive summary:\n\n**Technology Trends:**\n" ++
          (v1 ++ ("\n\n**Health Breakthroughs:**\n" ++
            (v2 ++ ("\n\n**Finance Innovations:**\n" ++
              (v3 ++ ("\n\nYour summary should highlight common themes, surprising connections, and the most important key takeaways from all three reports. The final summary should be around 200 words." ++ ""))))))) := by
      simp only [aggregator_agent, render, h1, h2, h3, Except.map]
    exact ⟨_, hr, ⟨_, _, rfl⟩,
      containsStr_append_left _ _ _ (containsStr_append_left _ _ _ ⟨_, _, rfl⟩),
      containsStr_append_left _ _ _ (containsStr_append_left _ _ _
        (containsStr_append_left _ _ _ (containsStr_append_left _ _ _ ⟨_, _, rfl⟩)))⟩

/-- Witness for C6: the aggregator fails with `missingVar` and zero external
attempts on the pre-parallel store, and renders successfully once all three
research keys are present. -/
theorem missing_variable_c6_witness :
    (runAgentR retry_config_p (fun _ _ => Except.error 500) aggregator_agent [] =
        (Except.error (RunError.missingVar "tech_research"), 0) ∧
      ∃ k, RunError.missingVar "tech_research" = RunError.missingVar k ∧
        Store.lookupKey ([] : Store) k = none) ∧
    (∃ s, render aggregator_agent.template
        [("tech_research", "T1"), ("health_research", "T2"), ("finance_research", "T3")] =
          Except.ok s ∧ containsStr s "T1" ∧ containsStr s "T2" ∧ containsStr s "T3") :=
  ⟨missing_variable_c6.1 retry_config_p (fun _ _ => Except.error 500) aggregator_agent []
      (RunError.missingVar "tech_research") rfl,
   missing_variable_c6.2.2 "T1" "T2" "T3" _ rfl rfl rfl⟩

/-- Workflow-level agent descriptor for the agent-as-tool reference graph:
a name and the names of the agents its tool list wraps (external tools such
as `google_search` do not appear — they reference no agent). -/
structure WAgent where
  name : String
  toolAgents : List String
deriving DecidableEq

/-- Configuration errors detected at workflow-construction time. -/
inductive ConfigurationError where
  | cyclicToolGraph
  | duplicateName
deriving DecidableEq

/-- A validated workflow: construction succeeded, so a Runner may be started
on it.  An unvalidated agent list can never reach a Runner. -/
structure Workflow where
  agents : List WAgent
deriving DecidableEq

/-- Tool-agent names referenced by the named agent. -/
def toolsOf (agents : List WAgent) (n : String) : List String :=
  match agents.find? (fun a => a.name == n) with
  | some a => a.toolAgents
  | none => []

/-- Fuelled reachability closure over the agent-as-tool reference graph. -/
def reachAux (agents : List WAgent) : Nat → List String → List String
  | 0, acc => acc
  | fuel + 1, acc =>
    let next := (acc.foldr (fun n r => toolsOf agents n ++ r) []).filter
      (fun n => !(acc.contains n))
    if next.isEmpty then acc else reachAux agents fuel (acc ++ next)

/-- An agent lies on a cycle exactly when it can reach itself through the
agent-as-tool reference graph. -/
def hasCycle (agents : List WAgent) : Bool :=
  agents.any (fun a => (reachAux agents agents.length a.toolAgents).contains a.name)

/-- Modelled from the spec: workflow construction (§4.5, §7) statically
checks the agent-as-tool reference graph — duplicate names and cycles are
rejected with a `ConfigurationError` before any Runner invocation can start,
since a Runner only accepts a constructed `Workflow`. -/
def buildWorkflow (agents : List WAgent) : Except ConfigurationError Workflow :=
  if (agents.map WAgent.name).Nodup then
    if hasCycle agents then .error .cyclicToolGraph
    else .ok ⟨agents⟩
  else .error .duplicateName

/-- The tool graph of `src/agent.py` lines 64-75: the ResearchCoordinator
wraps ResearchAgent and SummarizerAgent via `AgentTool`; the wrapped agents
wrap no agents themselves (google_search is an external tool). -/
def research_coordinator_graph : List WAgent :=
  [{ name := "ResearchCoordinator", toolAgents := ["ResearchAgent", "SummarizerAgent"] },
   { name := "ResearchAgent", toolAgents := [] },
   { name := "SummarizerAgent", toolAgents := [] }]

/-- A cyclic two-agent tool graph: A wraps B and B wraps A. -/
def cyclic_graph : List WAgent :=
  [{ name := "A", toolAgents := ["B"] }, { name := "B", toolAgents := ["A"] }]

/-- C7: constructing a workflow whose agent-as-tool reference graph is cyclic
(A wraps B, B wraps A) fails at construction time with a
`ConfigurationError`, so no Runner invocation can start on it; the acyclic
coordinator graph of the source constructs successfully. -/
theorem cycle_rejection_c7 :
    buildWorkflow cyclic_graph = Except.error ConfigurationError.cyclicToolGraph ∧
    buildWorkflow research_coordinator_graph =
      Except.ok (Workflow.mk research_coordinator_graph) := by
  exact ⟨rfl, rfl⟩

/-- Python value shapes distinguished by `extract_text_from_response` in
`src/agent.py` lines 155-181: `None`, a string, an object with a `text`
attribute, a list, a dictionary, or any other object (characterised by its
`str()` representation). -/
inductive PyVal where
  | nonePy
  | str (s : String)
  | withText (text : PyVal)
  | list (items : List PyVal)
  | dict (entries : List (String × PyVal))
  | obj (strRepr : String)

mutual

/-- Model of Python `str()` on the value shapes above. -/
def pyStr : PyVal → String
  | .nonePy => "None"
  | .str s => s
  | .withText v => "<object text=" ++ pyStr v ++ ">"
  | .list items => "[" ++ pyStrList items ++ "]"
  | .dict entries => "dict(" ++ pyStrDict entries ++ ")"
  | .obj r => r

/-- Comma-joined `str()` of list elements. -/
def pyStrList : List PyVal → String
  | [] => ""
  | [x] => pyStr x
  | x :: xs => pyStr x ++ ", " ++ pyStrList xs

/-- Comma-joined `str()` of dictionary entries. -/
def pyStrDict : List (String × PyVal) → String
  | [] => ""
  | [(k, v)] => k ++ ": " ++ pyStr v
  | (k, v) :: es => k ++ ": " ++ pyStr v ++ ", " ++ pyStrDict es

end

/-- Dictionary membership test and access, first matching entry. -/
def pyLookup : List (String × PyVal) → String → Option PyVal
  | [], _ => none
  | (k2, v) :: rest, k => if k2 = k then some v else pyLookup rest k

/-- The first key of the priority list present in the dictionary, with its
value — `for key in [...]: if key in response: ...` in the source. -/
def findFirstKey (entries : List (String × PyVal)) : List String → Option PyVal
  | [] => none
  | k :: ks =>
    match pyLookup entries k with
    | some v => some v
    | none => findFirstKey entries ks

theorem pyLookup_sizeOf (entries : List (String × PyVal)) (k : String) (v : PyVal)
    (h : pyLookup entries k = some v) : sizeOf v < sizeOf entries := by
  induction entries with
  | nil => simp [pyLookup] at h
  | cons p rest ih =>
    obtain ⟨k2, w⟩ := p
    by_cases hk : k2 = k
    · simp only [pyLookup, if_pos hk, Option.some.injEq] at h
      subst h
      simp only [List.cons.sizeOf_spec, Prod.mk.sizeOf_spec]
      omega
    · simp only [pyLookup, if_neg hk] at h
      have := ih h
      simp only [List.cons.sizeOf_spec]
      omega

theorem findFirstKey_sizeOf (entries : List (String × PyVal)) (ks : List String)
    (v : PyVal) (h : findFirstKey entries ks = some v) : sizeOf v < sizeOf entries := by
  induction ks with
  | nil => simp [findFirstKey] at h
  | cons k ks ih =>
    cases hl : pyLookup entries k with
    | some w =>
      simp only [findFirstKey, hl, Option.some.injEq] at h
      subst h
      exact pyLookup_sizeOf entries k _ hl
    | none =>
      simp only [findFirstKey, hl] at h
      exact ih h

/-- Embedding of `extract_text_from_response` from `src/agent.py` lines
155-181: `None` gives a fixed message; a string is returned as is; an object
with a `text` attribute gives `str` of that attribute; a list gives the
space-joined stringification of its elements; a dictionary recurses into the
first present key among `text`, `content`, `response`, `result`, falling
back to its own stringification; anything else gives its stringification. -/
def extract_text_from_response : PyVal → String
  | .nonePy => "No response received"
  | .str s => s
  | .withText v => pyStr v
  | .list items => String.intercalate " " (items.map pyStr)
  | .dict entries =>
    match h : findFirstKey entries ["text", "content", "response", "result"] with
    | some v => extract_text_from_response v
    | none => pyStr (.dict entries)
  | .obj r => r
termination_by v => sizeOf v
decreasing_by
  simp only [PyVal.dict.sizeOf_spec]
  have := findFirstKey_sizeOf entries ["text", "content", "response", "result"] v h
  omega

/-- C8: `extract_text_from_response` is total — every input shape produces a
string, with the branch behaviour of the source: the fixed message for
`None`, identity on strings, `str` of the `text` attribute, space-joined
stringification for lists, recursive extraction through the first present
priority key for dictionaries with `str` fallback, and `str` otherwise. -/
theorem extract_text_total_c8 :
    (extract_text_from_response PyVal.nonePy = "No response received") ∧
    (∀ s, extract_text_from_response (PyVal.str s) = s) ∧
    (∀ v, extract_text_from_response (PyVal.withText v) = pyStr v) ∧
    (∀ items, extract_text_from_response (PyVal.list items) =
      String.intercalate " " (items.map pyStr)) ∧
    (∀ entries v,
      findFirstKey entries ["text", "content", "response", "result"] = some v →
      extract_text_from_response (PyVal.dict entries) = extract_text_from_response v) ∧
    (∀ entries,
      findFirstKey entries ["text", "content", "response", "result"] = none →
      extract_text_from_response (PyVal.dict entries) = pyStr (PyVal.dict entries)) ∧
    (∀ r, extract_text_from_response (PyVal.obj r) = r) := by
  refine ⟨?_, ?_, ?_, ?_, ?_, ?_, ?_⟩
  · simp [extract_text_from_response]
  · intro s; simp [extract_text_from_response]
  · intro v; simp [extract_text_from_response]
  · intro items; simp [extract_text_from_response]
  · intro entries v h
    simp only [extract_text_from_response]
    split
    · next w hw =>
        rw [hw] at h
        simp only [Option.some.injEq] at h
        subst h
        rfl
    · next hw =>
        rw [hw] at h
        exact absurd h (by simp)
  · intro entries h
    simp only [extract_text_from_response]
    split
    · next w hw =>
        rw [hw] at h
        exact absurd h (by simp)
    · next hw => rfl
  · intro r; simp [extract_text_from_response]

/-- Witness for C8 at a concrete dictionary carrying a `content` entry. -/
theorem extract_text_total_c8_witness :
    extract_text_from_response (PyVal.dict [("content", PyVal.str "hello")]) =
      extract_text_from_response (PyVal.str "hello") :=
  extract_text_total_c8.2.2.2.2.1 [("content", PyVal.str "hello")] (PyVal.str "hello") rfl

/-- Python `str.isalnum` on a character: a letter or a digit. -/
def pyIsAlnum (c : Char) : Bool := c.isAlpha || c.isDigit

/-- Embedding of the query sanitisation in `save_to_pdf`, `src/code.py`
lines 24-26: keep characters that are alphanumeric or in the set space,
underscore, hyphen; replace every other character by an underscore; then
truncate to 50 characters. -/
def save_to_pdf_safe_query (query : String) : String :=
  let safe := String.mk (query.data.map (fun c =>
    if pyIsAlnum c ∨ c = ' ' ∨ c = '_' ∨ c = '-' then c else '_'))
  String.mk (safe.data.take 50)

/-- C9: for every query, the sanitised filename fragment is at most 50
characters and contains only alphanumeric characters, spaces, underscores
and hyphens. -/
theorem safe_query_c9 (query : String) :
    (save_to_pdf_safe_query query).data.length ≤ 50 ∧
    ∀ c ∈ (save_to_pdf_safe_query query).data,
      pyIsAlnum c = true ∨ c = ' ' ∨ c = '_' ∨ c = '-' := by
  constructor
  · show (List.take 50 _).length ≤ 50
    simp [List.length_take]
  · intro c hc
    have hc3 : c ∈ query.data.map (fun c =>
        if pyIsAlnum c ∨ c = ' ' ∨ c = '_' ∨ c = '-' then c else '_') :=
      List.mem_of_mem_take hc
    obtain ⟨c0, -, hmap⟩ := List.mem_map.mp hc3
    by_cases h : pyIsAlnum c0 ∨ c0 = ' ' ∨ c0 = '_' ∨ c0 = '-'
    · rw [if_pos h] at hmap
      subst hmap
      rcases h with h | h
      · exact Or.inl h
      · exact Or.inr h
    · rw [if_neg h] at hmap
      subst hmap
      right; right; left; rfl

/-- Witness for C9 on a query containing punctuation. -/
theorem safe_query_c9_witness :
    (save_to_pdf_safe_query "ab!?").data.length ≤ 50 ∧
    (pyIsAlnum '_' = true ∨ '_' = ' ' ∨ '_' = '_' ∨ '_' = '-') :=
  ⟨(safe_query_c9 "ab!?").1, (safe_query_c9 "ab!?").2 '_' (by decide)⟩

/-- A streamed response chunk: its `text` attribute when it has one
(`hasattr(chunk, 'text')` in the source). -/
structure Chunk where
  text : Option String

/-- The prompt wrapper built by `generate_story`, `src/i_agent.py`
lines 80-85. -/
def full_prompt (prompt : String) : String :=
  "Write a creative short story based on the following prompt:\n        \n        " ++
    prompt ++
    "\n        \n        The story should be 3-5 paragraphs long, with engaging characters and a clear narrative arc. \n        Include vivid descriptions and dialogue where appropriate."

/-- Embedding of `generate_story` from `src/i_agent.py` lines 77-101: the
underlying streaming call either raises (the `Except.error` case, caught by
the `try`, returning `None`) or yields chunks; the texts of chunks having a
`text` attribute are concatenated, with a fixed message when none has one. -/
def generate_story (call : String → Except String (List Chunk)) (prompt : String) :
    Option String :=
  match call (full_prompt prompt) with
  | .error _ => none
  | .ok chunks =>
    match chunks.filterMap Chunk.text with
    | [] => some "No story was generated."
    | c :: cs => some (String.join (c :: cs))

/-- C10: `generate_story` never propagates an exception: when the underlying
call raises it returns `None`; otherwise it returns the concatenation of the
texts of all chunks that have a `text` attribute, or the fixed message when
no chunk has one — and it returns `None` only when the call raised. -/
theorem generate_story_c10 :
    (∀ (call : String → Except String (List Chunk)) (prompt e : String),
      call (full_prompt prompt) = Except.error e →
      generate_story call prompt = none) ∧
    (∀ (call : String → Except String (List Chunk)) (prompt : String)
        (chunks : List Chunk),
      call (full_prompt prompt) = Except.ok chunks →
      chunks.filterMap Chunk.text = [] →
      generate_story call prompt = some "No story was generated.") ∧
    (∀ (call : String → Except String (List Chunk)) (prompt : String)
        (chunks : List Chunk),
      call (full_prompt prompt) = Except.ok chunks →
      chunks.filterMap Chunk.text ≠ [] →
      generate_story call prompt = some (String.join (chunks.filterMap Chunk.text))) ∧
    (∀ (call : String → Except String (List Chunk)) (prompt : String),
      generate_story call prompt = none →
      ∃ e, call (full_prompt prompt) = Except.error e) := by
  refine ⟨?_, ?_, ?_, ?_⟩
  · intro call prompt e h
    simp [generate_story, h]
  · intro call prompt chunks h hsc
    simp [generate_story, h, hsc]
  · intro call prompt chunks h hsc
    cases hl : chunks.filterMap Chunk.text with
    | nil => exact absurd hl hsc
    | cons c cs => simp [generate_story, h, hl]
  · intro call prompt h
    cases hc : call (full_prompt prompt) with
    | error e => exact ⟨e, rfl⟩
    | ok chunks =>
      cases hl : chunks.filterMap Chunk.text with
      | nil => simp [generate_story, hc, hl] at h
      | cons c cs => simp [generate_story, hc, hl] at h

/-- Witness for C10 at a raising call, an all-textless stream, and a stream
with two text chunks. -/
theorem generate_story_c10_witness :
    generate_story (fun _ => Except.error "boom") "p" = none ∧
    generate_story (fun _ => Except.ok [⟨none⟩]) "p" =
      some "No story was generated." ∧
    generate_story (fun _ => Except.ok [⟨some "a"⟩, ⟨none⟩, ⟨some "b"⟩]) "p" =
      some (String.join ["a", "b"]) :=
  ⟨generate_story_c10.1 (fun _ => Except.error "boom") "p" "boom" rfl,
   generate_story_c10.2.1 (fun _ => Except.ok [⟨none⟩]) "p" [⟨none⟩] rfl rfl,
   generate_story_c10.2.2.1 (fun _ => Except.ok [⟨some "a"⟩, ⟨none⟩, ⟨some "b"⟩]) "p"
     [⟨some "a"⟩, ⟨none⟩, ⟨some "b"⟩] rfl (by simp)⟩
